import Mathlib

/-!
Shallow embedding of the Fyrox audio-effect core:
`fyrox-sound/src/effects/mod.rs` (BaseEffect, EffectInput, InputFilter) and
`src/scene/sound/context.rs` (SoundContext reconciliation: sync_to_sound,
sync_with_sound, remove_sound).

f32/f64 samples and gains are modelled as exact rationals (ℚ); machine
floating point is out of scope.  Fallible operations (pool lookups that
panic in Rust on an invalid handle) are modelled with Option.
-/

namespace Fyrox

/-- Modelled from the spec (§9, "Arena with weak handles"): a generation-checked
weak handle `(index, generation)` into a `Pool`; mirrors `fyrox_core::pool::Handle`
which is absent from the sources. -/
structure SHandle where
  index : Nat
  generation : Nat
deriving DecidableEq, Repr

/-- The unbound default handle (`Handle::NONE`): generation 0 is never issued. -/
def SHandle.NONE : SHandle := ⟨0, 0⟩

/-- `Handle::is_some`: a handle is bound iff its generation is a real one. -/
def SHandle.is_some (h : SHandle) : Bool := h.generation != 0

/-- One slot of a pool: the current generation and the optional payload. -/
structure PoolRecord (α : Type) where
  generation : Nat
  payload : Option α
deriving DecidableEq, Repr

/-- Modelled from the spec (§3, §9): `fyrox_core::pool::Pool`, a
generation-checked index table.  Simplification kept from the spec's contract:
`spawn` always appends a fresh slot (never reuses a vacant one), which preserves
the spec's guarantee that freeing an entry invalidates only handles to that
entry. -/
structure Pool (α : Type) where
  records : List (PoolRecord α)
deriving DecidableEq, Repr

namespace Pool

/-- `Pool::is_valid_handle`: index in range, generation matches, slot occupied. -/
def is_valid_handle {α} (p : Pool α) (h : SHandle) : Bool :=
  match p.records.get? h.index with
  | some r => r.generation == h.generation && r.payload.isSome
  | none => false

/-- `Pool::borrow` / `borrow_mut` lookup: `some` payload on a valid handle,
`none` where the Rust code would panic on an invalid one. -/
def borrow {α} (p : Pool α) (h : SHandle) : Option α :=
  match p.records.get? h.index with
  | some r => if r.generation == h.generation then r.payload else none
  | none => none

/-- Write back a mutation made through `borrow_mut` (Rust mutates in place). -/
def replace {α} (p : Pool α) (h : SHandle) (v : α) : Pool α :=
  match p.records.get? h.index with
  | some r =>
      if r.generation == h.generation then
        ⟨p.records.set h.index { r with payload := some v }⟩
      else p
  | none => p

/-- `Pool::free`: vacate the slot and bump its generation, so the freed
handle (and only it) stops resolving. -/
def free_handle {α} (p : Pool α) (h : SHandle) : Pool α :=
  match p.records.get? h.index with
  | some r => ⟨p.records.set h.index ⟨r.generation + 1, none⟩⟩
  | none => p

/-- `Pool::spawn`: insert a value, returning its fresh (valid) handle. -/
def spawn {α} (p : Pool α) (v : α) : SHandle × Pool α :=
  (⟨p.records.length, 1⟩, ⟨p.records ++ [⟨1, some v⟩]⟩)

end Pool

/-- `fyrox_sound::source::Status`. -/
inductive Status where
  | Stopped
  | Playing
  | Paused
deriving DecidableEq, Repr

/-- `fyrox_sound::context::DistanceModel` (opaque to the effect core: it is
only threaded through to the external distance-gain computation). -/
inductive DistanceModel where
  | NoAttenuation
  | LinearDistance
  | InverseDistance
  | ExponentDistance
deriving DecidableEq, Repr

/-- `fyrox_sound::listener::Listener`, reduced to what the external geometry
function consumes: a position. -/
structure Listener where
  position : ℚ × ℚ × ℚ
deriving DecidableEq, Repr

/-- Backend `SoundSource` (spec §3): the fields the reconciler pushes, plus the
status and per-frame sample buffer the render pass reads. -/
structure SoundSource where
  gain : ℚ
  buffer : Option Nat
  looping : Bool
  panning : ℚ
  pitch : ℚ
  status : Status
  playback_time : ℚ
  position : ℚ × ℚ × ℚ
  radius : ℚ
  max_distance : ℚ
  rolloff_factor : ℚ
  spatial_blend : ℚ
  frame_samples : List (ℚ × ℚ)
deriving DecidableEq, Repr

/-- Modelled from the spec: `fyrox_core::math::lerpf`, the linear interpolation
used for the click-free distance-gain ramp (§4.1 step c). -/
def lerpf (a b t : ℚ) : ℚ := a + (b - a) * t

/-- Modelled from the spec (§3 InputFilter): `dsp::filters::Biquad`, a
second-order digital filter with coefficients and independent running state. -/
structure Biquad where
  b0 : ℚ
  b1 : ℚ
  b2 : ℚ
  a1 : ℚ
  a2 : ℚ
  x1 : ℚ
  x2 : ℚ
  y1 : ℚ
  y2 : ℚ
deriving DecidableEq, Repr

/-- Modelled from the spec: one `Biquad::feed` step (direct-form-I second-order
section), returning the output sample and the updated running state. -/
def Biquad.feed (f : Biquad) (x : ℚ) : ℚ × Biquad :=
  let y := f.b0 * x + f.b1 * f.x1 + f.b2 * f.x2 - f.a1 * f.y1 - f.a2 * f.y2
  (y, { f with x1 := x, x2 := f.x1, y1 := y, y2 := f.y1 })

/-- `InputFilter`: a stereo pair of biquads, one per channel. -/
structure InputFilter where
  left : Biquad
  right : Biquad
deriving DecidableEq, Repr

/-- `InputFilter::feed`. -/
def InputFilter.feed (f : InputFilter) (left_sample right_sample : ℚ) :
    (ℚ × ℚ) × InputFilter :=
  let (l, fl) := f.left.feed left_sample
  let (r, fr) := f.right.feed right_sample
  ((l, r), { left := fl, right := fr })

/-- `EffectInput`: weak reference to a source, optional filter and the cached
previous distance gain used by the ramp. -/
structure EffectInput where
  source : SHandle
  filter : Option InputFilter
  last_distance_gain : Option ℚ
deriving DecidableEq, Repr

/-- `EffectInput::direct`. -/
def EffectInput.direct (source : SHandle) : EffectInput :=
  { source := source, filter := none, last_distance_gain := none }

/-- `EffectInput::filtered`. -/
def EffectInput.filtered (source : SHandle) (filter : InputFilter) : EffectInput :=
  { source := source, filter := some filter, last_distance_gain := none }

/-- `BaseEffect`: gain, ordered inputs, scratch accumulation buffer. -/
structure BaseEffect where
  gain : ℚ
  inputs : List EffectInput
  frame_samples : List (ℚ × ℚ)
deriving DecidableEq, Repr

/-- `BaseEffect::default()`: gain 1, no inputs, empty scratch buffer. -/
def BaseEffect.default : BaseEffect := ⟨1, [], []⟩

/-- The unfiltered inner loop of `BaseEffect::render`: zip the accumulation
buffer with the source's frame samples, adding `sample * lerpf(prev, d, k)`
with `k` advancing by `step` per sample; stops at the shorter list, leaving
the rest of the accumulator untouched (as `zip` does in the Rust code). -/
def mixDirect (prev d step : ℚ) : ℚ → List (ℚ × ℚ) → List (ℚ × ℚ) → List (ℚ × ℚ)
  | _, [], _ => []
  | _, accum, [] => accum
  | k, (al, ar) :: accum, (il, ir) :: src =>
      let g := lerpf prev d k
      (al + il * g, ar + ir * g) :: mixDirect prev d step (k + step) accum src

/-- The filtered inner loop of `BaseEffect::render`: each raw sample is fed
through the biquad pair before the ramped gain is applied; the filter state is
threaded through and returned. -/
def mixFiltered (prev d step : ℚ) :
    ℚ → InputFilter → List (ℚ × ℚ) → List (ℚ × ℚ) → List (ℚ × ℚ) × InputFilter
  | _, f, [], _ => ([], f)
  | _, f, accum, [] => (accum, f)
  | k, f, (al, ar) :: accum, (il, ir) :: src =>
      let ((fl, fr), f') := f.feed il ir
      let g := lerpf prev d k
      let (rest, f'') := mixFiltered prev d step (k + step) f' accum src
      ((al + fl * g, ar + fr * g) :: rest, f'')

/-- One iteration of the per-input loop of `BaseEffect::render`: skip inputs
whose source is not `Playing`, otherwise compute the distance gain through the
external geometry function `dgain` (`calculate_distance_gain`), seed the ramp
from `last_distance_gain` (or the current gain on the first frame), store the
new gain, and accumulate.  The `none` lookup branch is unreachable because the
caller pruned the inputs to valid handles. -/
def renderInput (sources : Pool SoundSource) (listener : Listener)
    (distance_model : DistanceModel)
    (dgain : SoundSource → Listener → DistanceModel → ℚ) (amount : Nat)
    (frame : List (ℚ × ℚ)) (input : EffectInput) : List (ℚ × ℚ) × EffectInput :=
  match sources.borrow input.source with
  | none => (frame, input)
  | some source =>
    if source.status != Status.Playing then (frame, input)
    else
      let distance_gain := dgain source listener distance_model
      let prev_distance_gain := input.last_distance_gain.getD distance_gain
      let input' : EffectInput := { input with last_distance_gain := some distance_gain }
      let step : ℚ := 1 / (amount : ℚ)
      match input'.filter with
      | none => (mixDirect prev_distance_gain distance_gain step 0 frame source.frame_samples, input')
      | some filter =>
          let r :=
            mixFiltered prev_distance_gain distance_gain step 0 filter frame source.frame_samples
          (r.1, { input' with filter := some r.2 })

/-- The per-input loop of `BaseEffect::render` over the (pruned) input list,
threading the accumulation buffer and collecting each input's updated state. -/
def renderInputs (sources : Pool SoundSource) (listener : Listener)
    (distance_model : DistanceModel)
    (dgain : SoundSource → Listener → DistanceModel → ℚ) (amount : Nat) :
    List (ℚ × ℚ) → List EffectInput → List (ℚ × ℚ) × List EffectInput
  | frame, [] => (frame, [])
  | frame, input :: rest =>
      let r1 := renderInput sources listener distance_model dgain amount frame input
      let r2 := renderInputs sources listener distance_model dgain amount r1.1 rest
      (r2.1, r1.2 :: r2.2)

/-- `BaseEffect::render`: prune dangling inputs, reset the scratch buffer to
`amount` zero samples, then accumulate every playing input.  `dgain` stands for
the external `SoundSource::calculate_distance_gain` geometry function. -/
def BaseEffect.render (e : BaseEffect) (sources : Pool SoundSource)
    (listener : Listener) (distance_model : DistanceModel)
    (dgain : SoundSource → Listener → DistanceModel → ℚ) (amount : Nat) : BaseEffect :=
  let inputs := e.inputs.filter (fun input => sources.is_valid_handle input.source)
  let frame : List (ℚ × ℚ) := List.replicate amount (0, 0)
  let r := renderInputs sources listener distance_model dgain amount frame inputs
  { e with inputs := r.2, frame_samples := r.1 }

/-- `BaseEffect::set_gain`: clamp negative gain to zero via `gain.max(0.0)`. -/
def BaseEffect.set_gain (e : BaseEffect) (gain : ℚ) : BaseEffect :=
  { e with gain := max gain 0 }

/-- `BaseEffect::add_input`. -/
def BaseEffect.add_input (e : BaseEffect) (input : EffectInput) : BaseEffect :=
  { e with inputs := e.inputs ++ [input] }

/-- `BaseEffect::remove_input` (Vec::remove at an index). -/
def BaseEffect.remove_input (e : BaseEffect) (index : Nat) : BaseEffect :=
  { e with inputs := e.inputs.eraseIdx index }

/-- Modelled from the spec (§3, §9 "Change-tracked fields"): a `TemplateVariable`
field of the scene `Sound` node — a value plus a flag set on write and cleared
on push.  The `Sound` type itself is outside the given sources; its fields and
their change tracking follow §3. -/
structure Var (α : Type) where
  value : α
  modified : Bool
deriving DecidableEq, Repr

/-- Modelled from the spec (§4.3): `try_sync_model` — if the field changed,
hand its value to the setter and clear the flag; otherwise do nothing.  The
returned option is `some value` exactly when the setter closure runs. -/
def trySync {α : Type} (v : Var α) : Var α × Option α :=
  if v.modified then ({ v with modified := false }, some v.value) else (v, none)

/-- Modelled from the spec: `set_value_silent` — overwrite the value without
touching the change flag. -/
def Var.set_value_silent {α : Type} (v : Var α) (x : α) : Var α :=
  { v with value := x }

/-- Modelled from the spec (§3 "Sound"): the scene node's sound payload as
consumed by the reconciler — every change-tracked scalar field pushed by
`sync_to_sound`, the lazily bound backend handle, and the externally supplied
global-enabled flag and world position. -/
structure Sound where
  name : String
  globally_enabled : Bool
  buffer : Var (Option Nat)
  max_distance : Var ℚ
  rolloff_factor : Var ℚ
  radius : Var ℚ
  playback_time : Var ℚ
  pitch : Var ℚ
  looping : Var Bool
  panning : Var ℚ
  gain : Var ℚ
  spatial_blend : Var ℚ
  status : Var Status
  effect_name : Var String
  native : SHandle
  global_position : ℚ × ℚ × ℚ
deriving DecidableEq, Repr

/-- Modelled from the spec (§3 "Effect"): a model-side effect as consumed by
`sync_to_sound`'s name lookup — its name and its lazily bound backend handle
(the reverb parameters sit behind `update`, which these claims do not use). -/
structure MEffect where
  name : String
  native : SHandle
deriving DecidableEq, Repr

/-- The backend (`fyrox_sound` state) tables the reconciler touches: the
source arena and the effect arena (each backend effect dereferences to its
`BaseEffect`). -/
structure Backend where
  sources : Pool SoundSource
  effects : Pool BaseEffect
deriving DecidableEq, Repr

/-- A record of one backend setter invocation made by `sync_to_sound`'s
field-diff section (used to state the idempotent-reconciliation property). -/
inductive SetterCall where
  | set_buffer
  | set_max_distance
  | set_rolloff_factor
  | set_radius
  | set_playback_time
  | set_pitch
  | set_looping
  | set_panning
  | set_gain
  | set_spatial_blend
  | set_status
deriving DecidableEq, Repr

/-- `SoundContext::remove_sound`: remove the backend source if the handle is
still valid (a no-op otherwise); the log line is elided. -/
def remove_sound (b : Backend) (sound : SHandle) : Backend :=
  if b.sources.is_valid_handle sound then
    { b with sources := b.sources.free_handle sound }
  else b

/-- `SoundContext::sync_with_sound`: pull playback status and playback time
from the backend source back into the model, silently (flags untouched); a
sound without a resolvable backend source is left unchanged. -/
def sync_with_sound (b : Backend) (sound : Sound) : Sound :=
  match b.sources.borrow sound.native with
  | some source =>
      { sound with
          status := sound.status.set_value_silent source.status
          playback_time := sound.playback_time.set_value_silent source.playback_time }
  | none => sound

/-- One `try_sync_model(|v| source.set_x(v))` step of the bound-path field
diff: thread the backend source and the invocation log. -/
def syncField {α : Type} (v : Var α) (tag : SetterCall)
    (apply : α → SoundSource → SoundSource)
    (st : SoundSource × List SetterCall) : Var α × SoundSource × List SetterCall :=
  if v.modified then ({ v with modified := false }, apply v.value st.1, st.2 ++ [tag])
  else (v, st.1, st.2)

/-- The `effect_name` closure of `sync_to_sound`'s bound path: find the model
effect with that name; through its backend counterpart, remove any input
already referencing this source (searching that effect only) and add a fresh
direct input.  The backend lookup yielding `none` (effect not yet materialized)
is modelled from the spec (§5): the step is skipped for this tick. -/
def syncEffectName (effects : List MEffect) (effect_name : String)
    (source_handle : SHandle) (b : Backend) : Backend :=
  match effects.find? (fun e => e.name == effect_name) with
  | none => b
  | some e =>
      match b.effects.borrow e.native with
      | none => b
      | some native_effect =>
          let native_effect :=
            match native_effect.inputs.findIdx? (fun input => input.source == source_handle) with
            | some prev => native_effect.remove_input prev
            | none => native_effect
          let native_effect := native_effect.add_input (EffectInput.direct source_handle)
          { b with effects := b.effects.replace e.native native_effect }

/-- `source.stop()` / `play()` / `pause()` on the status push (backend
internals beyond the status field are opaque, per spec §6). -/
def applyStatus (s : Status) (source : SoundSource) : SoundSource :=
  { source with status := s }

/-- The bound-path field-diff section of `sync_to_sound`: all eleven
change-tracked scalar fields in source order, threading the backend source and
the invocation log; returns the sound with those fields' flags cleared. -/
def syncFields (sound : Sound) (source : SoundSource) :
    Sound × SoundSource × List SetterCall :=
  let r1 := syncField sound.buffer .set_buffer
    (fun v s => { s with buffer := v }) (source, [])
  let r2 := syncField sound.max_distance .set_max_distance
    (fun v s => { s with max_distance := v }) r1.2
  let r3 := syncField sound.rolloff_factor .set_rolloff_factor
    (fun v s => { s with rolloff_factor := v }) r2.2
  let r4 := syncField sound.radius .set_radius
    (fun v s => { s with radius := v }) r3.2
  let r5 := syncField sound.playback_time .set_playback_time
    (fun v s => { s with playback_time := v }) r4.2
  let r6 := syncField sound.pitch .set_pitch
    (fun v s => { s with pitch := v }) r5.2
  let r7 := syncField sound.looping .set_looping
    (fun v s => { s with looping := v }) r6.2
  let r8 := syncField sound.panning .set_panning
    (fun v s => { s with panning := v }) r7.2
  let r9 := syncField sound.gain .set_gain
    (fun v s => { s with gain := v }) r8.2
  let r10 := syncField sound.spatial_blend .set_spatial_blend
    (fun v s => { s with spatial_blend := v }) r9.2
  let r11 := syncField sound.status .set_status applyStatus r10.2
  ({ sound with
      buffer := r1.1, max_distance := r2.1, rolloff_factor := r3.1,
      radius := r4.1, playback_time := r5.1, pitch := r6.1,
      looping := r7.1, panning := r8.1, gain := r9.1,
      spatial_blend := r10.1, status := r11.1 },
    r11.2)

/-- The `SoundSourceBuilder` chain of `sync_to_sound`'s creation path: a new
backend source built from every current model field in one shot.  Modelled
from the spec (§4.4): builder validation is elided and construction succeeds;
the failure branch only logs and leaves the handle unbound.  `spatial_blend`
is not in the builder chain and keeps the backend default of 1. -/
def build_source (sound : Sound) : SoundSource :=
  { gain := sound.gain.value
    buffer := sound.buffer.value
    looping := sound.looping.value
    panning := sound.panning.value
    pitch := sound.pitch.value
    status := sound.status.value
    playback_time := sound.playback_time.value
    position := sound.global_position
    radius := sound.radius.value
    max_distance := sound.max_distance.value
    rolloff_factor := sound.rolloff_factor.value
    spatial_blend := 1
    frame_samples := [] }

/-- `SoundContext::sync_to_sound`.  Arguments: the model-side effect list (the
alive entries of `self.effects` in index order), the backend tables, the node
handle (as `Nat`), the sound payload and the optional override set.  Returns
`none` where the Rust code would panic (`source_mut` on an invalid bound
handle), otherwise the updated sound (flags cleared by `try_sync_model`), the
updated backend, and the list of field setters invoked. -/
def sync_to_sound (effects : List MEffect) (b : Backend) (sound_handle : Nat)
    (sound : Sound) (node_overrides : Option (List Nat)) :
    Option (Sound × Backend × List SetterCall) :=
  if !sound.globally_enabled
      || !((node_overrides.map (fun f => f.contains sound_handle)).getD true) then
    some ({ sound with native := SHandle.NONE }, remove_sound b sound.native, [])
  else if sound.native.is_some then
    match b.sources.borrow sound.native with
    | none => none
    | some source =>
        let r := syncFields sound source
        let b1 := { b with sources := b.sources.replace sound.native r.2.1 }
        -- state dropped here before the effect-name lookup (lock discipline)
        let en := trySync sound.effect_name
        let b2 :=
          match en.2 with
          | some effect_name => syncEffectName effects effect_name sound.native b1
          | none => b1
        some ({ r.1 with effect_name := en.1 }, b2, r.2.2)
  else
    -- Creation path: SoundSourceBuilder with every current field value.
    let source := build_source sound
    let h := (b.sources.spawn source).1
    let b := { b with sources := (b.sources.spawn source).2 }
    let sound' := { sound with native := h }
    let b :=
      match effects.find? (fun e => e.name == sound.effect_name.value) with
      | some e =>
          match b.effects.borrow e.native with
          | none => b
          | some native_effect =>
              let native_effect := native_effect.add_input (EffectInput.direct h)
              { b with effects := b.effects.replace e.native native_effect }
      | none => b
    some (sound', b, [])

/-- All change-tracked flags of a `Sound` are clear: nothing is pending a push
to the backend. -/
def Sound.clean (s : Sound) : Prop :=
  s.buffer.modified = false ∧ s.max_distance.modified = false ∧
    s.rolloff_factor.modified = false ∧ s.radius.modified = false ∧
    s.playback_time.modified = false ∧ s.pitch.modified = false ∧
    s.looping.modified = false ∧ s.panning.modified = false ∧
    s.gain.modified = false ∧ s.spatial_blend.modified = false ∧
    s.status.modified = false ∧ s.effect_name.modified = false

/-- A backend source fixture used by concrete witnesses. -/
def wSrc (st : Status) (samples : List (ℚ × ℚ)) : SoundSource :=
  { gain := 1, buffer := none, looping := false, panning := 0, pitch := 1,
    status := st, playback_time := 0, position := (0, 0, 0), radius := 1,
    max_distance := 1, rolloff_factor := 1, spatial_blend := 1,
    frame_samples := samples }

/-- A listener fixture used by concrete witnesses. -/
def wListener : Listener := ⟨(0, 0, 0)⟩

/-- A model `Sound` fixture used by concrete witnesses and counterexamples:
all change flags clear except `effect_name`, which carries `ename` with the
given flag, bound to backend handle `native`. -/
def wSound (ename : String) (emod : Bool) (native : SHandle) : Sound :=
  { name := "snd", globally_enabled := true,
    buffer := ⟨none, false⟩, max_distance := ⟨1, false⟩,
    rolloff_factor := ⟨1, false⟩, radius := ⟨1, false⟩,
    playback_time := ⟨0, false⟩, pitch := ⟨1, false⟩,
    looping := ⟨false, false⟩, panning := ⟨0, false⟩, gain := ⟨1, false⟩,
    spatial_blend := ⟨1, false⟩, status := ⟨Status.Stopped, false⟩,
    effect_name := ⟨ename, emod⟩, native := native, global_position := (0, 0, 0) }

/-- A globally disabled variant of the `wSound` fixture, bound to slot 0. -/
def wSoundOff : Sound := { wSound "" false ⟨0, 1⟩ with globally_enabled := false }

/-- Concrete rewiring scenario: the backend holds one source (slot 0) and two
effects — slot 0 ("A"-native) already holding an input for that source, slot 1
("B"-native) empty. -/
def wBackendAB : Backend :=
  ⟨⟨[⟨1, some (wSrc Status.Stopped [])⟩]⟩,
   ⟨[⟨1, some ⟨1, [EffectInput.direct ⟨0, 1⟩], []⟩⟩, ⟨1, some BaseEffect.default⟩]⟩⟩

/-- The model-side effect list of the rewiring scenario: "A" bound to backend
effect slot 0, "B" bound to slot 1. -/
def wEffectsAB : List MEffect := [⟨"A", ⟨0, 1⟩⟩, ⟨"B", ⟨1, 1⟩⟩]

/-! ### Lemmas about the render pass -/

theorem lerpf_self (a t : ℚ) : lerpf a a t = a := by
  simp [lerpf]

theorem mixDirect_length (prev d step : ℚ) :
    ∀ (accum src : List (ℚ × ℚ)) (k : ℚ),
      (mixDirect prev d step k accum src).length = accum.length := by
  intro accum
  induction accum with
  | nil => intro src k; cases src <;> simp [mixDirect]
  | cons a accum ih =>
      intro src k
      cases src with
      | nil => simp [mixDirect]
      | cons s src =>
          rcases a with ⟨al, ar⟩
          rcases s with ⟨il, ir⟩
          simp [mixDirect, ih]

theorem mixDirect_get? (prev d step : ℚ) :
    ∀ (accum src : List (ℚ × ℚ)) (k : ℚ) (i : ℕ), i < accum.length → i < src.length →
      (mixDirect prev d step k accum src).get? i =
        some ((accum.getD i (0, 0)).1 + (src.getD i (0, 0)).1 * lerpf prev d (k + i * step),
              (accum.getD i (0, 0)).2 + (src.getD i (0, 0)).2 * lerpf prev d (k + i * step)) := by
  intro accum
  induction accum with
  | nil => intro src k i hi hj; simp at hi
  | cons a accum ih =>
      intro src k i hi hj
      cases src with
      | nil => simp at hj
      | cons s src =>
          rcases a with ⟨al, ar⟩
          rcases s with ⟨il, ir⟩
          cases i with
          | zero => simp [mixDirect]
          | succ n =>
              have hn : n < accum.length := by simpa using hi
              have hm : n < src.length := by simpa using hj
              have hrec := ih src (k + step) n hn hm
              have harith : k + step + (n : ℚ) * step = k + ((n + 1 : ℕ) : ℚ) * step := by
                push_cast
                ring
              rw [harith] at hrec
              simpa [mixDirect] using hrec

theorem renderInput_source (sources : Pool SoundSource) (listener : Listener)
    (dm : DistanceModel) (dgain : SoundSource → Listener → DistanceModel → ℚ)
    (amount : Nat) (frame : List (ℚ × ℚ)) (input : EffectInput) :
    ((renderInput sources listener dm dgain amount frame input).2).source = input.source := by
  unfold renderInput
  cases sources.borrow input.source with
  | none => rfl
  | some source =>
      by_cases h : source.status != Status.Playing
      · simp [h]
      · cases hf : input.filter <;> simp [h, hf]

theorem renderInput_frame_indep (sources : Pool SoundSource) (listener : Listener)
    (dm : DistanceModel) (dgain : SoundSource → Listener → DistanceModel → ℚ)
    (amount : Nat) (frame frame' : List (ℚ × ℚ)) (input : EffectInput)
    (hfil : input.filter = none) :
    (renderInput sources listener dm dgain amount frame input).2 =
      (renderInput sources listener dm dgain amount frame' input).2 := by
  unfold renderInput
  cases sources.borrow input.source with
  | none => rfl
  | some source =>
      by_cases h : source.status != Status.Playing
      · simp [h]
      · simp [h, hfil]

theorem renderInput_not_playing (sources : Pool SoundSource) (listener : Listener)
    (dm : DistanceModel) (dgain : SoundSource → Listener → DistanceModel → ℚ)
    (amount : Nat) (frame : List (ℚ × ℚ)) (input : EffectInput) (src : SoundSource)
    (hb : sources.borrow input.source = some src) (hs : src.status ≠ Status.Playing) :
    renderInput sources listener dm dgain amount frame input = (frame, input) := by
  unfold renderInput
  rw [hb]
  simp [hs]

theorem renderInputs_map_source (sources : Pool SoundSource) (listener : Listener)
    (dm : DistanceModel) (dgain : SoundSource → Listener → DistanceModel → ℚ)
    (amount : Nat) :
    ∀ (ins : List EffectInput) (frame : List (ℚ × ℚ)),
      ((renderInputs sources listener dm dgain amount frame ins).2).map EffectInput.source =
        ins.map EffectInput.source := by
  intro ins
  induction ins with
  | nil => intro frame; simp [renderInputs]
  | cons input rest ih =>
      intro frame
      simp [renderInputs, ih, renderInput_source]

theorem renderInputs_length (sources : Pool SoundSource) (listener : Listener)
    (dm : DistanceModel) (dgain : SoundSource → Listener → DistanceModel → ℚ)
    (amount : Nat) (ins : List EffectInput) (frame : List (ℚ × ℚ)) :
    ((renderInputs sources listener dm dgain amount frame ins).2).length = ins.length := by
  have := congrArg List.length
    (renderInputs_map_source sources listener dm dgain amount ins frame)
  simpa using this

theorem renderInputs_get?_not_playing (sources : Pool SoundSource) (listener : Listener)
    (dm : DistanceModel) (dgain : SoundSource → Listener → DistanceModel → ℚ)
    (amount : Nat) :
    ∀ (ins : List EffectInput) (frame : List (ℚ × ℚ)) (k : ℕ) (input : EffectInput)
      (src : SoundSource),
      ins.get? k = some input → sources.borrow input.source = some src →
      src.status ≠ Status.Playing →
      ((renderInputs sources listener dm dgain amount frame ins).2).get? k = some input := by
  intro ins
  induction ins with
  | nil => intro frame k input src hk; simp at hk
  | cons i0 rest ih =>
      intro frame k input src hk hb hs
      cases k with
      | zero =>
          simp at hk
          subst hk
          simp [renderInputs, renderInput_not_playing sources listener dm dgain amount frame
            i0 src hb hs]
      | succ n =>
          simp at hk
          simpa [renderInputs] using
            ih ((renderInput sources listener dm dgain amount frame i0).1) n input src
              (by simpa using hk) hb hs

/-! ### Claims about `BaseEffect` -/

/-- C5: `BaseEffect::set_gain(g)` stores 0 when `g < 0` and stores `g` itself
when `g ≥ 0`: negative gain is rejected by clamping, never by an error. -/
theorem set_gain_clamps (e : BaseEffect) (g : ℚ) :
    (g < 0 → (e.set_gain g).gain = 0) ∧ (0 ≤ g → (e.set_gain g).gain = g) := by
  constructor
  · intro h
    simp [BaseEffect.set_gain, max_eq_right (le_of_lt h)]
  · intro h
    simp [BaseEffect.set_gain, max_eq_left h]

/-- Witness for C5 at `g = -1` and `g = 2` on the default effect. -/
theorem set_gain_clamps_witness :
    (BaseEffect.default.set_gain (-1)).gain = 0 ∧
      (BaseEffect.default.set_gain 2).gain = 2 :=
  ⟨(set_gain_clamps BaseEffect.default (-1)).1 (by norm_num),
   (set_gain_clamps BaseEffect.default 2).2 (by norm_num)⟩

/-- C9: `BaseEffect::render` never reads the effect-level `gain` field — two
states that agree on `inputs` (which carry the cached interpolation and filter
state) produce identical output buffers and identical updated inputs whatever
their `gain` fields are, over any sources, listener, distance model and sample
count; moreover `render` leaves `gain` unchanged. -/
theorem render_ignores_gain (e1 e2 : BaseEffect) (hin : e1.inputs = e2.inputs)
    (sources : Pool SoundSource) (listener : Listener) (dm : DistanceModel)
    (dgain : SoundSource → Listener → DistanceModel → ℚ) (amount : Nat) :
    (e1.render sources listener dm dgain amount).frame_samples =
        (e2.render sources listener dm dgain amount).frame_samples ∧
      (e1.render sources listener dm dgain amount).inputs =
        (e2.render sources listener dm dgain amount).inputs ∧
      (e1.render sources listener dm dgain amount).gain = e1.gain := by
  refine ⟨?_, ?_, ?_⟩ <;> simp [BaseEffect.render, hin]

theorem filter_ext_mem {α : Type} (p q : α → Bool) :
    ∀ l : List α, (∀ a ∈ l, p a = q a) → l.filter p = l.filter q := by
  intro l
  induction l with
  | nil => intro _; rfl
  | cons a l ih =>
      intro hpq
      have ha := hpq a (by simp)
      have hl := ih fun x hx => hpq x (by simp [hx])
      simp only [List.filter_cons, ha, hl]

theorem map_filter_comm {α β : Type} (f : α → β) (q : α → Bool) (p : β → Bool)
    (hpq : ∀ x, q x = p (f x)) :
    ∀ l : List α, (l.filter q).map f = (l.map f).filter p := by
  intro l
  induction l with
  | nil => rfl
  | cons a l ih =>
      simp only [List.filter_cons, List.map_cons, hpq a]
      by_cases h : p (f a) = true
      · simp [h, ih]
      · simp [h, ih]

/-- C2: an input whose source was freed from the backend arena is pruned by the
next `render` call: with exactly one input referencing the freed handle `hS`
and every other input still valid, the input list shrinks by exactly one, no
surviving input references `hS`, and every input with a valid handle survives
(the surviving handle sequence is the old one with `hS` dropped); the pruning
itself is total (no crash). -/
theorem render_prunes_dangling (e : BaseEffect) (sources : Pool SoundSource)
    (listener : Listener) (dm : DistanceModel)
    (dgain : SoundSource → Listener → DistanceModel → ℚ) (amount : Nat) (hS : SHandle)
    (hvalid : ∀ input ∈ e.inputs,
      sources.is_valid_handle input.source = !(input.source == hS))
    (hone : e.inputs.countP (fun input => input.source == hS) = 1) :
    (e.render sources listener dm dgain amount).inputs.length + 1 = e.inputs.length ∧
      (∀ input' ∈ (e.render sources listener dm dgain amount).inputs,
        input'.source ≠ hS) ∧
      (e.render sources listener dm dgain amount).inputs.map EffectInput.source =
        (e.inputs.map EffectInput.source).filter (fun s => !(s == hS)) := by
  have hmap : (e.render sources listener dm dgain amount).inputs.map EffectInput.source =
      (e.inputs.map EffectInput.source).filter (fun s => !(s == hS)) := by
    show ((renderInputs sources listener dm dgain amount (List.replicate amount (0, 0))
        (e.inputs.filter (fun input => sources.is_valid_handle input.source))).2).map
          EffectInput.source = _
    rw [renderInputs_map_source,
      filter_ext_mem _ (fun input => !(input.source == hS)) e.inputs hvalid,
      map_filter_comm EffectInput.source _ (fun s => !(s == hS)) (fun _ => rfl)]
  refine ⟨?_, ?_, hmap⟩
  · have hlen : (e.render sources listener dm dgain amount).inputs.length =
        ((e.inputs.map EffectInput.source).filter (fun s => !(s == hS))).length := by
      rw [← List.length_map _ EffectInput.source, hmap]
    have hsplit := List.length_eq_length_filter_add
      (l := e.inputs.map EffectInput.source) (fun s => s == hS)
    have hcount : ((e.inputs.map EffectInput.source).filter (fun s => s == hS)).length = 1 := by
      rw [← List.countP_eq_length_filter, List.countP_map]
      exact hone
    have hml : (e.inputs.map EffectInput.source).length = e.inputs.length :=
      List.length_map _ _
    rw [hlen]
    omega
  · intro input' hmem
    have hm : input'.source ∈ (e.inputs.map EffectInput.source).filter (fun s => !(s == hS)) := by
      rw [← hmap]
      exact List.mem_map_of_mem EffectInput.source hmem
    have := (List.mem_filter.mp hm).2
    simpa using this

/-- Witness for C2: an effect with one freed and one live input, rendered over
a pool where slot 0 was freed (generation bumped): the list shrinks from 2 to 1. -/
theorem render_prunes_dangling_witness :
    (BaseEffect.render ⟨1, [EffectInput.direct ⟨0, 1⟩, EffectInput.direct ⟨1, 1⟩], []⟩
        ⟨[⟨2, none⟩, ⟨1, some (wSrc Status.Stopped [])⟩]⟩
        wListener DistanceModel.NoAttenuation (fun _ _ _ => 1) 0).inputs.length + 1 = 2 :=
  (render_prunes_dangling ⟨1, [EffectInput.direct ⟨0, 1⟩, EffectInput.direct ⟨1, 1⟩], []⟩
    ⟨[⟨2, none⟩, ⟨1, some (wSrc Status.Stopped [])⟩]⟩
    wListener DistanceModel.NoAttenuation (fun _ _ _ => 1) 0 ⟨0, 1⟩
    (by decide) (by decide)).1

/-- C10: a valid but non-playing input is left completely untouched by
`render`: the survivor list (dangling inputs pruned, order preserved) has the
same length as the rendered input list, and any survivor whose source is not
`Playing` reappears at the same position with identical source handle, filter
state and cached `last_distance_gain`. -/
theorem render_preserves_non_playing (e : BaseEffect) (sources : Pool SoundSource)
    (listener : Listener) (dm : DistanceModel)
    (dgain : SoundSource → Listener → DistanceModel → ℚ) (amount : Nat) :
    (e.render sources listener dm dgain amount).inputs.length =
        (e.inputs.filter (fun input => sources.is_valid_handle input.source)).length ∧
      ∀ (k : ℕ) (input : EffectInput) (src : SoundSource),
        (e.inputs.filter (fun input => sources.is_valid_handle input.source)).get? k =
            some input →
          sources.borrow input.source = some src → src.status ≠ Status.Playing →
          (e.render sources listener dm dgain amount).inputs.get? k = some input := by
  constructor
  · exact renderInputs_length sources listener dm dgain amount _ _
  · intro k input src hk hb hs
    exact renderInputs_get?_not_playing sources listener dm dgain amount _ _ k input src hk hb hs

/-- Witness for C10: a paused input survives a render at position 0, untouched. -/
theorem render_preserves_non_playing_witness :
    (BaseEffect.render ⟨1, [EffectInput.direct ⟨0, 1⟩], []⟩
        ⟨[⟨1, some (wSrc Status.Paused [(1, 1)])⟩]⟩
        wListener DistanceModel.NoAttenuation (fun _ _ _ => 1) 1).inputs.get? 0 =
      some (EffectInput.direct ⟨0, 1⟩) :=
  (render_preserves_non_playing ⟨1, [EffectInput.direct ⟨0, 1⟩], []⟩
      ⟨[⟨1, some (wSrc Status.Paused [(1, 1)])⟩]⟩
      wListener DistanceModel.NoAttenuation (fun _ _ _ => 1) 1).2
    0 (EffectInput.direct ⟨0, 1⟩) (wSrc Status.Paused [(1, 1)])
    (by decide) (by decide) (by decide)

theorem getD_replicate_self {α : Type} (a : α) : ∀ (n i : ℕ),
    (List.replicate n a).getD i a = a := by
  intro n
  induction n with
  | zero => intro i; simp [List.getD]
  | succ m ih =>
      intro i
      cases i with
      | zero => simp [List.replicate]
      | succ j =>
          rw [List.replicate_succ, List.getD_cons_succ]
          exact ih j

/-- The effect of one `render` call on an effect holding a single direct
(unfiltered) input referencing a playing source: the cached gain becomes the
current distance gain `d`, and output sample `i` is the source sample scaled by
`lerpf prev d (i / amount)` where `prev` is the cached gain, seeded with `d`
itself when no cached value exists. -/
theorem render_single_direct (e : BaseEffect) (sources : Pool SoundSource)
    (listener : Listener) (dm : DistanceModel)
    (dgain : SoundSource → Listener → DistanceModel → ℚ) (amount : Nat)
    (h : SHandle) (lprev : Option ℚ) (src : SoundSource)
    (hin : e.inputs = [⟨h, none, lprev⟩])
    (hv : sources.is_valid_handle h = true)
    (hb : sources.borrow h = some src)
    (hp : src.status = Status.Playing)
    (hl : src.frame_samples.length = amount) :
    (e.render sources listener dm dgain amount).inputs =
        [⟨h, none, some (dgain src listener dm)⟩] ∧
      ∀ i : ℕ, i < amount →
        (e.render sources listener dm dgain amount).frame_samples.get? i =
          some ((src.frame_samples.getD i (0, 0)).1 *
                  lerpf (lprev.getD (dgain src listener dm)) (dgain src listener dm)
                    ((i : ℚ) / (amount : ℚ)),
                (src.frame_samples.getD i (0, 0)).2 *
                  lerpf (lprev.getD (dgain src listener dm)) (dgain src listener dm)
                    ((i : ℚ) / (amount : ℚ))) := by
  have hflt : e.inputs.filter (fun input => sources.is_valid_handle input.source) =
      [⟨h, none, lprev⟩] := by
    rw [hin]
    simp [hv]
  have hren : renderInput sources listener dm dgain amount (List.replicate amount (0, 0))
      (⟨h, none, lprev⟩ : EffectInput) =
      (mixDirect (lprev.getD (dgain src listener dm)) (dgain src listener dm)
          (1 / (amount : ℚ)) 0 (List.replicate amount (0, 0)) src.frame_samples,
        ⟨h, none, some (dgain src listener dm)⟩) := by
    unfold renderInput
    rw [hb]
    simp [hp]
  constructor
  · show ((renderInputs sources listener dm dgain amount (List.replicate amount (0, 0))
        (e.inputs.filter (fun input => sources.is_valid_handle input.source))).2) = _
    rw [hflt]
    simp only [renderInputs]
    rw [hren]
  · intro i hi
    show ((renderInputs sources listener dm dgain amount (List.replicate amount (0, 0))
        (e.inputs.filter (fun input => sources.is_valid_handle input.source))).1).get? i = _
    rw [hflt]
    simp only [renderInputs]
    rw [hren]
    show (mixDirect (lprev.getD (dgain src listener dm)) (dgain src listener dm)
        (1 / (amount : ℚ)) 0 (List.replicate amount (0, 0)) src.frame_samples).get? i = _
    rw [mixDirect_get? _ _ _ _ _ _ i (by simpa using hi) (by rw [hl]; exact hi)]
    rw [getD_replicate_self]
    simp [zero_add, div_eq_mul_inv]

/-- C1: the distance-gain ramp of `BaseEffect::render`.  For a playing direct
input with cached previous gain `prev` (seeded with the current gain `d` when
no cached value exists), output sample `i` of a `render(amount)` call carries
gain `lerpf prev d (i/amount)`; in particular, across two consecutive calls
whose distance gains are `d0` then `d1`, the first call scales every sample by
the constant `d0` and the second scales sample `i` by `lerpf d0 d1 (i/amount)`. -/
theorem distance_gain_ramp (listener : Listener) (dm : DistanceModel)
    (dgain dgain0 dgain1 : SoundSource → Listener → DistanceModel → ℚ)
    (amount : Nat) (h : SHandle) (lprev : Option ℚ)
    (e e0 : BaseEffect) (sources sources0 sources1 : Pool SoundSource)
    (src src0 src1 : SoundSource)
    (hin : e.inputs = [⟨h, none, lprev⟩])
    (hv : sources.is_valid_handle h = true)
    (hb : sources.borrow h = some src)
    (hp : src.status = Status.Playing)
    (hl : src.frame_samples.length = amount)
    (hin0 : e0.inputs = [EffectInput.direct h])
    (hv0 : sources0.is_valid_handle h = true)
    (hb0 : sources0.borrow h = some src0)
    (hp0 : src0.status = Status.Playing)
    (hl0 : src0.frame_samples.length = amount)
    (hv1 : sources1.is_valid_handle h = true)
    (hb1 : sources1.borrow h = some src1)
    (hp1 : src1.status = Status.Playing)
    (hl1 : src1.frame_samples.length = amount) :
    (∀ i : ℕ, i < amount →
      (e.render sources listener dm dgain amount).frame_samples.get? i =
        some ((src.frame_samples.getD i (0, 0)).1 *
                lerpf (lprev.getD (dgain src listener dm)) (dgain src listener dm)
                  ((i : ℚ) / (amount : ℚ)),
              (src.frame_samples.getD i (0, 0)).2 *
                lerpf (lprev.getD (dgain src listener dm)) (dgain src listener dm)
                  ((i : ℚ) / (amount : ℚ)))) ∧
    (∀ i : ℕ, i < amount →
      (e0.render sources0 listener dm dgain0 amount).frame_samples.get? i =
        some ((src0.frame_samples.getD i (0, 0)).1 * dgain0 src0 listener dm,
              (src0.frame_samples.getD i (0, 0)).2 * dgain0 src0 listener dm)) ∧
    (∀ i : ℕ, i < amount →
      ((e0.render sources0 listener dm dgain0 amount).render sources1 listener dm dgain1
          amount).frame_samples.get? i =
        some ((src1.frame_samples.getD i (0, 0)).1 *
                lerpf (dgain0 src0 listener dm) (dgain1 src1 listener dm)
                  ((i : ℚ) / (amount : ℚ)),
              (src1.frame_samples.getD i (0, 0)).2 *
                lerpf (dgain0 src0 listener dm) (dgain1 src1 listener dm)
                  ((i : ℚ) / (amount : ℚ)))) := by
  have hfirst := render_single_direct e0 sources0 listener dm dgain0 amount h none src0
    hin0 hv0 hb0 hp0 hl0
  refine ⟨?_, ?_, ?_⟩
  · exact (render_single_direct e sources listener dm dgain amount h lprev src
      hin hv hb hp hl).2
  · intro i hi
    rw [hfirst.2 i hi]
    simp [lerpf_self]
  · have hsecond := render_single_direct (e0.render sources0 listener dm dgain0 amount)
      sources1 listener dm dgain1 amount h (some (dgain0 src0 listener dm)) src1
      hfirst.1 hv1 hb1 hp1 hl1
    intro i hi
    rw [hsecond.2 i hi]
    rfl

/-- Witness for C1 with `amount = 2`, samples `(1,1),(2,2)` then `(1,1),(2,2)`,
distance gains 3 then 5: the second call's sample 1 carries gain
`lerpf 3 5 (1/2) = 4`. -/
theorem distance_gain_ramp_witness :
    ((BaseEffect.render ⟨1, [EffectInput.direct ⟨0, 1⟩], []⟩
          ⟨[⟨1, some (wSrc Status.Playing [(1, 1), (2, 2)])⟩]⟩
          wListener DistanceModel.NoAttenuation (fun _ _ _ => 3) 2).render
        ⟨[⟨1, some (wSrc Status.Playing [(1, 1), (2, 2)])⟩]⟩
        wListener DistanceModel.NoAttenuation (fun _ _ _ => 5) 2).frame_samples.get? 1 =
      some (8, 8) := by
  have hw := (distance_gain_ramp wListener DistanceModel.NoAttenuation
      (fun _ _ _ => 3) (fun _ _ _ => 3) (fun _ _ _ => 5) 2 ⟨0, 1⟩ none
      ⟨1, [EffectInput.direct ⟨0, 1⟩], []⟩ ⟨1, [EffectInput.direct ⟨0, 1⟩], []⟩
      ⟨[⟨1, some (wSrc Status.Playing [(1, 1), (2, 2)])⟩]⟩
      ⟨[⟨1, some (wSrc Status.Playing [(1, 1), (2, 2)])⟩]⟩
      ⟨[⟨1, some (wSrc Status.Playing [(1, 1), (2, 2)])⟩]⟩
      (wSrc Status.Playing [(1, 1), (2, 2)]) (wSrc Status.Playing [(1, 1), (2, 2)])
      (wSrc Status.Playing [(1, 1), (2, 2)])
      rfl (by decide) (by decide) (by decide) (by decide)
      rfl (by decide) (by decide) (by decide) (by decide)
      (by decide) (by decide) (by decide) (by decide)).2.2 1 (by norm_num)
  rw [hw]
  norm_num [lerpf, wSrc]

/-- Witness for C9: two effects differing only in gain render identically. -/
theorem render_ignores_gain_witness :
    (BaseEffect.render ⟨1, [], []⟩ ⟨[]⟩ ⟨(0, 0, 0)⟩ DistanceModel.NoAttenuation
        (fun _ _ _ => 1) 1).frame_samples =
      (BaseEffect.render ⟨7, [], []⟩ ⟨[]⟩ ⟨(0, 0, 0)⟩ DistanceModel.NoAttenuation
        (fun _ _ _ => 1) 1).frame_samples :=
  (render_ignores_gain ⟨1, [], []⟩ ⟨7, [], []⟩ rfl ⟨[]⟩ ⟨(0, 0, 0)⟩
    DistanceModel.NoAttenuation (fun _ _ _ => 1) 1).1

/-! ### Lemmas about pools, change-tracked fields and the reconciler -/

theorem list_set_self {α : Type} :
    ∀ (l : List α) (i : ℕ) (a : α), l.get? i = some a → l.set i a = l := by
  intro l
  induction l with
  | nil => intro i a h; simp at h
  | cons x l ih =>
      intro i a h
      cases i with
      | zero =>
          rw [List.get?_cons_zero] at h
          cases Option.some.inj h
          rfl
      | succ j =>
          rw [List.get?_cons_succ] at h
          show x :: l.set j a = x :: l
          rw [ih j a h]

theorem Pool.replace_self {α : Type} (p : Pool α) (h : SHandle) (v : α)
    (hb : p.borrow h = some v) : p.replace h v = p := by
  unfold Pool.borrow at hb
  unfold Pool.replace
  cases hg : p.records.get? h.index with
  | none => rfl
  | some r =>
      rw [hg] at hb
      dsimp only at hb ⊢
      by_cases hgen : (r.generation == h.generation) = true
      · rw [if_pos hgen] at hb
        rw [if_pos hgen]
        have hr : ({ r with payload := some v } : PoolRecord α) = r := by
          cases r
          simp only [PoolRecord.mk.injEq, true_and]
          exact hb.symm
        rw [hr]
        cases p with
        | mk records =>
            simp only [Pool.mk.injEq]
            exact list_set_self records h.index r hg
      · rw [if_neg hgen] at hb
        exact Option.noConfusion hb

theorem Pool.borrow_replace {α : Type} (p : Pool α) (h : SHandle) (v w : α)
    (hb : p.borrow h = some w) : (p.replace h v).borrow h = some v := by
  unfold Pool.borrow at hb
  unfold Pool.replace Pool.borrow
  cases hg : p.records.get? h.index with
  | none => rw [hg] at hb; exact Option.noConfusion hb
  | some r =>
      rw [hg] at hb
      dsimp only at hb ⊢
      by_cases hgen : (r.generation == h.generation) = true
      · rw [if_pos hgen] at hb
        rw [if_pos hgen]
        have hidx : h.index < p.records.length := by
          have := List.get?_eq_some.mp hg
          exact this.1
        dsimp only
        rw [List.get?_eq_getElem?, List.getElem?_set_self (by simpa using hidx)]
        dsimp only
        rw [if_pos hgen]
      · rw [if_neg hgen] at hb
        exact Option.noConfusion hb

theorem Pool.borrow_replace_ne {α : Type} (p : Pool α) (h h2 : SHandle) (v : α)
    (hne : h2.index ≠ h.index) : (p.replace h v).borrow h2 = p.borrow h2 := by
  unfold Pool.replace Pool.borrow
  cases hg : p.records.get? h.index with
  | none => rfl
  | some r =>
      dsimp only
      by_cases hgen : (r.generation == h.generation) = true
      · rw [if_pos hgen]
        dsimp only
        rw [List.get?_eq_getElem?, List.getElem?_set_ne (fun hh => hne hh.symm),
          ← List.get?_eq_getElem?]
      · rw [if_neg hgen]

theorem remove_sound_effects (b : Backend) (h : SHandle) :
    (remove_sound b h).effects = b.effects := by
  unfold remove_sound
  by_cases hv : b.sources.is_valid_handle h = true
  · simp [hv]
  · simp [hv]

theorem remove_sound_invalid (b : Backend) (h : SHandle) :
    b.sources.is_valid_handle h = false → remove_sound b h = b := by
  intro hv
  unfold remove_sound
  simp [hv]

theorem trySync_fst {α : Type} (v : Var α) : (trySync v).1 = ⟨v.value, false⟩ := by
  rcases v with ⟨x, m⟩
  cases m <;> simp [trySync]

theorem trySync_snd {α : Type} (v : Var α) :
    (trySync v).2 = if v.modified then some v.value else none := by
  rcases v with ⟨x, m⟩
  cases m <;> simp [trySync]

theorem trySync_clean {α : Type} (v : Var α) (h : v.modified = false) :
    trySync v = (v, none) := by
  rcases v with ⟨x, m⟩
  simp at h
  simp [trySync, h]

theorem syncField_fst {α : Type} (v : Var α) (tag : SetterCall)
    (apply : α → SoundSource → SoundSource) (st : SoundSource × List SetterCall) :
    (syncField v tag apply st).1 = ⟨v.value, false⟩ := by
  rcases v with ⟨x, m⟩
  cases m <;> simp [syncField]

theorem syncField_clean {α : Type} (v : Var α) (tag : SetterCall)
    (apply : α → SoundSource → SoundSource) (st : SoundSource × List SetterCall)
    (h : v.modified = false) : syncField v tag apply st = (v, st.1, st.2) := by
  simp [syncField, h]

theorem syncFields_fst (s : Sound) (source : SoundSource) :
    (syncFields s source).1 =
      { s with
          buffer := ⟨s.buffer.value, false⟩,
          max_distance := ⟨s.max_distance.value, false⟩,
          rolloff_factor := ⟨s.rolloff_factor.value, false⟩,
          radius := ⟨s.radius.value, false⟩,
          playback_time := ⟨s.playback_time.value, false⟩,
          pitch := ⟨s.pitch.value, false⟩,
          looping := ⟨s.looping.value, false⟩,
          panning := ⟨s.panning.value, false⟩,
          gain := ⟨s.gain.value, false⟩,
          spatial_blend := ⟨s.spatial_blend.value, false⟩,
          status := ⟨s.status.value, false⟩ } := by
  unfold syncFields
  simp only [syncField_fst]

theorem syncFields_of_clean (s : Sound) (source : SoundSource) (hc : s.clean) :
    syncFields s source = (s, source, []) := by
  obtain ⟨h1, h2, h3, h4, h5, h6, h7, h8, h9, h10, h11, _⟩ := hc
  simp [syncFields, syncField_clean, h1, h2, h3, h4, h5, h6, h7, h8, h9, h10, h11]

theorem syncEffectName_sources (effects : List MEffect) (en : String)
    (sh : SHandle) (b : Backend) : (syncEffectName effects en sh b).sources = b.sources := by
  unfold syncEffectName
  cases effects.find? (fun e => e.name == en) with
  | none => rfl
  | some e =>
      dsimp only
      cases b.effects.borrow e.native with
      | none => rfl
      | some ne => rfl

/-- A bound-path `sync_to_sound` on a fully clean sound is a no-op: same sound,
same backend, no setter invocations. -/
theorem sync_to_sound_clean (effects : List MEffect) (b : Backend) (nh : Nat)
    (s : Sound) (ov : Option (List Nat)) (src : SoundSource)
    (hpass : (!s.globally_enabled
      || !((ov.map (fun f => f.contains nh)).getD true)) = false)
    (hsome : s.native.is_some = true)
    (hb : b.sources.borrow s.native = some src)
    (hc : s.clean) :
    sync_to_sound effects b nh s ov = some (s, b, []) := by
  have hsf := syncFields_of_clean s src hc
  have hts := trySync_clean s.effect_name hc.2.2.2.2.2.2.2.2.2.2.2
  have hrep := Pool.replace_self b.sources s.native src hb
  unfold sync_to_sound
  rw [hpass, if_neg Bool.false_ne_true, hsome, if_pos rfl, hb]
  dsimp only
  rw [hsf, hts]
  dsimp only
  rw [hrep]

/-- Any bound-path `sync_to_sound` clears every change flag, keeps the bound
handle, and leaves a resolvable backend source behind. -/
theorem sync_to_sound_bound (effects : List MEffect) (b : Backend) (nh : Nat)
    (s : Sound) (ov : Option (List Nat)) (src : SoundSource)
    (hpass : (!s.globally_enabled
      || !((ov.map (fun f => f.contains nh)).getD true)) = false)
    (hsome : s.native.is_some = true)
    (hb : b.sources.borrow s.native = some src) :
    ∃ s' b' log, sync_to_sound effects b nh s ov = some (s', b', log) ∧
      s'.clean ∧ s'.native = s.native ∧ s'.globally_enabled = s.globally_enabled ∧
      ∃ src', b'.sources.borrow s'.native = some src' := by
  refine ⟨{ (syncFields s src).1 with effect_name := (trySync s.effect_name).1 },
    (match (trySync s.effect_name).2 with
      | some effect_name => syncEffectName effects effect_name s.native
          { b with sources := b.sources.replace s.native (syncFields s src).2.1 }
      | none =>
          { b with sources := b.sources.replace s.native (syncFields s src).2.1 }),
    (syncFields s src).2.2, ?_, ?_, ?_, ?_, ?_⟩
  · unfold sync_to_sound
    rw [hpass, if_neg Bool.false_ne_true, hsome, if_pos rfl, hb]
  · simp [Sound.clean, syncFields_fst, trySync_fst]
  · simp [syncFields_fst]
  · simp [syncFields_fst]
  · refine ⟨(syncFields s src).2.1, ?_⟩
    have hnat : ({ (syncFields s src).1 with
        effect_name := (trySync s.effect_name).1 } : Sound).native = s.native := by
      simp [syncFields_fst]
    rw [hnat]
    have hbor := Pool.borrow_replace b.sources s.native (syncFields s src).2.1 src hb
    cases hts : (trySync s.effect_name).2 with
    | none => exact hbor
    | some en => rw [syncEffectName_sources]; exact hbor

/-- C6: idempotent reconciliation — if a bound, enabled (and not
override-excluded) sound is synced and then synced again with no model edits
in between, the second `sync_to_sound` performs zero backend setter
invocations and changes neither the sound nor the backend: the first call
cleared every change flag. -/
theorem sync_to_sound_idempotent (effects : List MEffect) (b : Backend) (nh : Nat)
    (s : Sound) (ov : Option (List Nat)) (src : SoundSource)
    (s1 : Sound) (b1 : Backend) (log1 : List SetterCall)
    (hpass : (!s.globally_enabled
      || !((ov.map (fun f => f.contains nh)).getD true)) = false)
    (hsome : s.native.is_some = true)
    (hb : b.sources.borrow s.native = some src)
    (hfirst : sync_to_sound effects b nh s ov = some (s1, b1, log1)) :
    sync_to_sound effects b1 nh s1 ov = some (s1, b1, []) := by
  obtain ⟨s', b', log, heq, hc, hn, hg, src', hbor⟩ :=
    sync_to_sound_bound effects b nh s ov src hpass hsome hb
  rw [hfirst] at heq
  obtain ⟨h1, h2⟩ := Prod.mk.injEq .. ▸ (Option.some.inj heq)
  obtain ⟨h2, h3⟩ := Prod.mk.injEq .. ▸ h2
  subst h1
  subst h2
  exact sync_to_sound_clean effects b1 nh s1 ov src'
    (by rw [hg]; exact hpass) (by rw [hn]; exact hsome) hbor hc

/-- Witness for C6: a clean bound sound synced twice; the second call is the
identity with an empty invocation log. -/
theorem sync_to_sound_idempotent_witness :
    sync_to_sound wEffectsAB wBackendAB 0 (wSound "" false ⟨0, 1⟩) none =
      some (wSound "" false ⟨0, 1⟩, wBackendAB, []) :=
  sync_to_sound_idempotent wEffectsAB wBackendAB 0 (wSound "" false ⟨0, 1⟩) none
    (wSrc Status.Stopped []) (wSound "" false ⟨0, 1⟩) wBackendAB []
    (by decide) (by decide) (by decide) (by decide)

/-- C7: a disabled (or override-excluded) sound is torn down: `sync_to_sound`
removes any bound backend source (a no-op when none resolves), clears the
handle to the unbound default, logs no setter calls and touches nothing else
(backend effects untouched, all other sound fields untouched). -/
theorem sync_to_sound_disabled (effects : List MEffect) (b : Backend) (nh : Nat)
    (s : Sound) (ov : Option (List Nat))
    (hfail : (!s.globally_enabled
      || !((ov.map (fun f => f.contains nh)).getD true)) = true) :
    sync_to_sound effects b nh s ov =
        some ({ s with native := SHandle.NONE }, remove_sound b s.native, []) ∧
      (remove_sound b s.native).effects = b.effects ∧
      (b.sources.is_valid_handle s.native = false → remove_sound b s.native = b) := by
  refine ⟨?_, remove_sound_effects b s.native, remove_sound_invalid b s.native⟩
  unfold sync_to_sound
  rw [hfail, if_pos rfl]

/-- Witness for C7: a disabled bound sound loses its backend source and ends
with the unbound default handle. -/
theorem sync_to_sound_disabled_witness :
    sync_to_sound wEffectsAB wBackendAB 0 wSoundOff none =
      some ({ wSoundOff with native := SHandle.NONE },
        remove_sound wBackendAB ⟨0, 1⟩, []) :=
  (sync_to_sound_disabled wEffectsAB wBackendAB 0 wSoundOff none (by decide)).1

/-- C8: `sync_with_sound` copies the backend source's status and playback time
into the model silently — values updated, change flags untouched, every other
field untouched — so an immediately following `sync_to_sound` with no other
model edits pushes nothing (empty setter log, sound and backend unchanged). -/
theorem sync_with_sound_silent (b : Backend) (s : Sound) (src : SoundSource)
    (hb : b.sources.borrow s.native = some src) :
    sync_with_sound b s =
        { s with status := ⟨src.status, s.status.modified⟩,
                 playback_time := ⟨src.playback_time, s.playback_time.modified⟩ } ∧
      ∀ (effects : List MEffect) (nh : Nat), s.clean → s.globally_enabled = true →
        s.native.is_some = true →
        sync_to_sound effects b nh (sync_with_sound b s) none =
          some (sync_with_sound b s, b, []) := by
  have heq : sync_with_sound b s =
      { s with status := ⟨src.status, s.status.modified⟩,
               playback_time := ⟨src.playback_time, s.playback_time.modified⟩ } := by
    simp [sync_with_sound, hb, Var.set_value_silent]
  refine ⟨heq, ?_⟩
  intro effects nh hc hg hn
  rw [heq]
  exact sync_to_sound_clean effects b nh _ none src
    (by simp [hg]) (by simpa using hn) (by simpa using hb)
    (by obtain ⟨h1, h2, h3, h4, h5, h6, h7, h8, h9, h10, h11, h12⟩ := hc
        exact ⟨h1, h2, h3, h4, h5, h6, h7, h8, h9, h10, h11, h12⟩)

theorem findIdx?_eq_none_of_all {α : Type} (p : α → Bool) :
    ∀ l : List α, l.all (fun x => !(p x)) = true → l.findIdx? p = none := by
  intro l
  induction l with
  | nil => intro _; rfl
  | cons a l ih =>
      intro hall
      simp only [List.all_cons, Bool.and_eq_true, Bool.not_eq_true'] at hall
      simp [List.findIdx?_cons, hall.1, ih (by simp [List.all_eq_true] at hall ⊢; exact hall.2)]

theorem any_add_input (ne : BaseEffect) (h : SHandle) :
    ((ne.add_input (EffectInput.direct h)).inputs).any
      (fun input => input.source == h) = true := by
  simp [BaseEffect.add_input, EffectInput.direct]

theorem Pool.spawn_valid {α : Type} (p : Pool α) (v : α) :
    ((p.spawn v).2).is_valid_handle (p.spawn v).1 = true := by
  unfold Pool.spawn Pool.is_valid_handle
  dsimp only
  rw [List.get?_eq_getElem?, List.getElem?_concat_length]
  rfl

/-- Running the bound path of `sync_to_sound` (no overrides) on a sound whose
`effect_name` flag is set, when the named model effect exists and its backend
counterpart resolves: explicit output — fields pushed, the source written
back, and the named effect rewired (dedup within that effect, then a fresh
direct input appended). -/
theorem sync_effect_name_run (effects : List MEffect) (b : Backend) (nh : Nat)
    (s : Sound) (src : SoundSource) (eB : MEffect) (neB : BaseEffect)
    (hg : s.globally_enabled = true)
    (hsome : s.native.is_some = true)
    (hb : b.sources.borrow s.native = some src)
    (hmod : s.effect_name.modified = true)
    (hfind : effects.find? (fun e => e.name == s.effect_name.value) = some eB)
    (hmat : b.effects.borrow eB.native = some neB) :
    sync_to_sound effects b nh s none =
      some ({ (syncFields s src).1 with effect_name := (trySync s.effect_name).1 },
        { sources := b.sources.replace s.native (syncFields s src).2.1,
          effects := b.effects.replace eB.native
            ((match neB.inputs.findIdx?
                  (fun input : EffectInput => input.source == s.native) with
              | some prev => neB.remove_input prev
              | none => neB).add_input (EffectInput.direct s.native)) },
        (syncFields s src).2.2) := by
  have hpass : (!s.globally_enabled
      || !((Option.map (fun f => f.contains nh) (none : Option (List ℕ))).getD true))
      = false := by rw [hg]; rfl
  unfold sync_to_sound
  rw [hpass, if_neg Bool.false_ne_true, hsome, if_pos rfl, hb]
  dsimp only
  rw [trySync_snd, hmod, if_pos rfl]
  dsimp only
  unfold syncEffectName
  rw [hfind]
  dsimp only
  rw [hmat]

/-- Witness for C8: pulling status `Stopped` and time 0 from the backend into
a clean bound sound, then syncing, pushes nothing. -/
theorem sync_with_sound_silent_witness :
    sync_with_sound wBackendAB (wSound "" false ⟨0, 1⟩) = wSound "" false ⟨0, 1⟩ ∧
      sync_to_sound wEffectsAB wBackendAB 0
          (sync_with_sound wBackendAB (wSound "" false ⟨0, 1⟩)) none =
        some (sync_with_sound wBackendAB (wSound "" false ⟨0, 1⟩), wBackendAB, []) := by
  have h := sync_with_sound_silent wBackendAB (wSound "" false ⟨0, 1⟩)
    (wSrc Status.Stopped []) (by decide)
  exact ⟨h.1, h.2 wEffectsAB 0
    ⟨rfl, rfl, rfl, rfl, rfl, rfl, rfl, rfl, rfl, rfl, rfl, rfl⟩ rfl rfl⟩

/-- Counterexample to C3 as stated: a sound previously wired to effect "A"
(backend effect slot 0 holds an input for its source) has `effect_name`
changed to "B" and is synced; afterwards effect "A"'s backend input list
STILL contains an input referencing the source — the removal step searched
only the newly named effect "B" (which also gained the input). -/
theorem sync_rewire_counterexample :
    ((sync_to_sound wEffectsAB wBackendAB 0 (wSound "B" true ⟨0, 1⟩) none).map
        (fun r => (r.2.1.effects.borrow ⟨0, 1⟩).map
          (fun ne => ne.inputs.any (fun input => input.source == ⟨0, 1⟩))) =
      some (some true)) ∧
    ((sync_to_sound wEffectsAB wBackendAB 0 (wSound "B" true ⟨0, 1⟩) none).map
        (fun r => (r.2.1.effects.borrow ⟨1, 1⟩).map
          (fun ne => ne.inputs.any (fun input => input.source == ⟨0, 1⟩))) =
      some (some true)) := by
  constructor <;> rfl

/-- C3 (amended): when `effect_name` changes to "B" and is synced, the
existing-input removal searches only the newly named effect B (deduplication
within B) before a fresh direct input is appended to B; every other backend
effect — in particular the previously wired effect A — is left unchanged, so A
still contains its input referencing this source. -/
theorem sync_rewires_named_effect_only (effects : List MEffect) (b : Backend)
    (nh : Nat) (s : Sound) (src : SoundSource) (eB : MEffect) (neB : BaseEffect)
    (hg : s.globally_enabled = true)
    (hsome : s.native.is_some = true)
    (hb : b.sources.borrow s.native = some src)
    (hmod : s.effect_name.modified = true)
    (hfind : effects.find? (fun e => e.name == s.effect_name.value) = some eB)
    (hmat : b.effects.borrow eB.native = some neB) :
    ((sync_to_sound effects b nh s none).map (fun r =>
        (r.2.1.effects.borrow eB.native).map
          (fun ne => ne.inputs.any (fun input => input.source == s.native))) =
      some (some true)) ∧
    ∀ s' b' log, sync_to_sound effects b nh s none = some (s', b', log) →
      (∀ h2 : SHandle, h2.index ≠ eB.native.index →
        b'.effects.borrow h2 = b.effects.borrow h2) ∧
      (neB.inputs.all (fun input => !(input.source == s.native)) = true →
        b'.effects.borrow eB.native =
          some (neB.add_input (EffectInput.direct s.native))) := by
  have hrun := sync_effect_name_run effects b nh s src eB neB hg hsome hb hmod hfind hmat
  constructor
  · rw [hrun]
    simp only [Option.map_some']
    rw [Pool.borrow_replace _ _ _ neB hmat]
    simp only [Option.map_some', any_add_input]
  · intro s' b' log heq
    rw [hrun] at heq
    have hb' : b' =
        ({ sources := b.sources.replace s.native (syncFields s src).2.1,
           effects := b.effects.replace eB.native
             ((match neB.inputs.findIdx?
                   (fun input : EffectInput => input.source == s.native) with
               | some prev => neB.remove_input prev
               | none => neB).add_input (EffectInput.direct s.native)) } : Backend) := by
      have := Option.some.inj heq
      exact (congrArg (fun t => t.2.1) this).symm
    subst hb'
    constructor
    · intro h2 hne
      exact Pool.borrow_replace_ne _ _ _ _ hne
    · intro hall
      rw [findIdx?_eq_none_of_all _ _ hall]
      exact Pool.borrow_replace _ _ _ neB hmat

/-- Witness for C3's amended claim on the concrete rewiring scenario: effect
"B" (backend slot 1) ends up containing an input for the source. -/
theorem sync_rewires_named_effect_only_witness :
    (sync_to_sound wEffectsAB wBackendAB 0 (wSound "B" true ⟨0, 1⟩) none).map
        (fun r => (r.2.1.effects.borrow ⟨1, 1⟩).map
          (fun ne => ne.inputs.any (fun input => input.source == ⟨0, 1⟩))) =
      some (some true) :=
  (sync_rewires_named_effect_only wEffectsAB wBackendAB 0 (wSound "B" true ⟨0, 1⟩)
    (wSrc Status.Stopped []) ⟨"B", ⟨1, 1⟩⟩ BaseEffect.default
    rfl rfl rfl rfl rfl rfl).1

/-- C4: a sound whose `effect_name` names an existing model effect whose
backend counterpart is not yet materialized: the creation-path sync binds a
fresh valid source handle, returns normally (no panic) with an empty setter
log and the backend effect table untouched (the input-add step is skipped);
on a later tick, once the named effect's backend counterpart exists, the sync
adds the direct input to it (the retry succeeds). -/
theorem sync_skips_unmaterialized_effect (effects1 effects2 : List MEffect)
    (b b2 : Backend) (nh : Nat) (s : Sound) (eB1 eB2 : MEffect) (ne : BaseEffect)
    (src2 : SoundSource)
    (hg : s.globally_enabled = true)
    (hunb : s.native.is_some = false)
    (hfind1 : effects1.find? (fun e => e.name == s.effect_name.value) = some eB1)
    (hnone : b.effects.borrow eB1.native = none)
    (hmod : s.effect_name.modified = true)
    (hfind2 : effects2.find? (fun e => e.name == s.effect_name.value) = some eB2)
    (hmat2 : b2.effects.borrow eB2.native = some ne)
    (hsrc2 : b2.sources.borrow (b.sources.spawn (build_source s)).1 = some src2) :
    (sync_to_sound effects1 b nh s none =
        some ({ s with native := (b.sources.spawn (build_source s)).1 },
          { b with sources := (b.sources.spawn (build_source s)).2 }, [])) ∧
      ((b.sources.spawn (build_source s)).2).is_valid_handle
          (b.sources.spawn (build_source s)).1 = true ∧
      ((sync_to_sound effects2 b2 nh
            { s with native := (b.sources.spawn (build_source s)).1 } none).map
          (fun r => (r.2.1.effects.borrow eB2.native).map
            (fun nf => nf.inputs.any
              (fun input => input.source == (b.sources.spawn (build_source s)).1))) =
        some (some true)) := by
  have hpass : (!s.globally_enabled
      || !((Option.map (fun f => f.contains nh) (none : Option (List ℕ))).getD true))
      = false := by rw [hg]; rfl
  refine ⟨?_, Pool.spawn_valid b.sources (build_source s), ?_⟩
  · unfold sync_to_sound
    rw [hpass, if_neg Bool.false_ne_true, hunb, if_neg Bool.false_ne_true, hfind1]
    dsimp only
    rw [hnone]
  · have hrun := sync_effect_name_run effects2 b2 nh
      { s with native := (b.sources.spawn (build_source s)).1 } src2 eB2 ne
      hg rfl hsrc2 hmod hfind2 hmat2
    rw [hrun]
    simp only [Option.map_some']
    rw [Pool.borrow_replace _ _ _ ne hmat2]
    simp only [Option.map_some', any_add_input]

/-- Witness for C4: fresh sound naming effect "A" over an empty backend —
tick 1 creates the source and skips the input add; once "A" is materialized
in slot 0, the next sync wires the input. -/
theorem sync_skips_unmaterialized_effect_witness :
    sync_to_sound [⟨"A", ⟨0, 1⟩⟩] ⟨⟨[]⟩, ⟨[]⟩⟩ 0 (wSound "A" true SHandle.NONE) none =
        some (wSound "A" true ⟨0, 1⟩,
          ⟨⟨[⟨1, some (build_source (wSound "A" true SHandle.NONE))⟩]⟩, ⟨[]⟩⟩, []) ∧
      ((sync_to_sound [⟨"A", ⟨0, 1⟩⟩]
            ⟨⟨[⟨1, some (build_source (wSound "A" true SHandle.NONE))⟩]⟩,
              ⟨[⟨1, some BaseEffect.default⟩]⟩⟩ 0
            (wSound "A" true ⟨0, 1⟩) none).map
          (fun r => (r.2.1.effects.borrow ⟨0, 1⟩).map
            (fun nf => nf.inputs.any (fun input => input.source == (⟨0, 1⟩ : SHandle)))) =
        some (some true)) := by
  have h := sync_skips_unmaterialized_effect [⟨"A", ⟨0, 1⟩⟩] [⟨"A", ⟨0, 1⟩⟩]
    ⟨⟨[]⟩, ⟨[]⟩⟩
    ⟨⟨[⟨1, some (build_source (wSound "A" true SHandle.NONE))⟩]⟩,
      ⟨[⟨1, some BaseEffect.default⟩]⟩⟩ 0
    (wSound "A" true SHandle.NONE) ⟨"A", ⟨0, 1⟩⟩ ⟨"A", ⟨0, 1⟩⟩ BaseEffect.default
    (build_source (wSound "A" true SHandle.NONE))
    rfl rfl rfl rfl rfl rfl rfl rfl
  exact ⟨h.1, h.2.2⟩

end Fyrox
